import Mathlib

/-!
# A shallow embedding of the data_hive job-execution engine

This file models, in Lean 4, the core of the `data_hive` remote-job worker:

* the JavaScript value model needed by the engine (`JSValue`, truthiness,
  strict equality, property access, string coercion),
* variable substitution (`JobManager.replaceVariables`, src/src/JobManager.js
  lines 92-112), including a faithful model of the global regex
  `/\{\{\s*vars\.(.*?)\s*\}\}/g` with its lazy capture group,
* the tool registry (`src/src/tools/ToolRegistry.js`),
* the conditional-gate tool (`ConditionalGateTool`),
* the fetch tool's error handling (`src/src/tools/FetchTool.js`),
* the step pipeline (`JobManager.processJob`) and job loop
  (`JobManager.jobLoop`).

Modelling conventions:

* JS numbers are modelled as `Int` (no floats/NaN are needed by the code
  paths under study); a failed numeric coercion (JS `NaN`) is `none`.
* Exceptions are modelled with `Except String`; the string is the error
  message ( `TypeError` messages are abbreviated).
* Logging and performance monitoring are side effects with no influence on
  results and are not modelled.
* External collaborators (the YAML parser, the HTTP client, the regex
  engine, the remote API) are parameters of the definitions that use them.
* JS objects are modelled as association lists with distinct keys; `===` on
  two objects/arrays (reference equality) is modelled as `false`, which is
  accurate for all distinct objects and is never exercised on aliased
  objects by the claims below.
-/

/-- A JavaScript runtime value, as far as the engine needs it. -/
inductive JSValue where
  | null
  | undef
  | bool (b : Bool)
  | num (n : Int)
  | str (s : String)
  | arr (elems : List JSValue)
  | obj (fields : List (String × JSValue))
deriving Repr

namespace JSValue

/-- JS truthiness: `null`, `undefined`, `false`, `0` and `""` are falsy;
every object and array is truthy. -/
def truthy : JSValue → Bool
  | .null => false
  | .undef => false
  | .bool b => b
  | .num n => n != 0
  | .str s => !(s == "")
  | .arr _ => true
  | .obj _ => true

/-- JS strict equality `===` on the values the engine compares.  Objects and
arrays compare by reference in JS; distinct object values are never `===`,
which is what this model returns. -/
def strictEq : JSValue → JSValue → Bool
  | .null, .null => true
  | .undef, .undef => true
  | .bool a, .bool b => a == b
  | .num a, .num b => a == b
  | .str a, .str b => a == b
  | _, _ => false

/-- JS `typeof v`, as a string. -/
def jsTypeof : JSValue → String
  | .null => "object"
  | .undef => "undefined"
  | .bool _ => "boolean"
  | .num _ => "number"
  | .str _ => "string"
  | .arr _ => "object"
  | .obj _ => "object"

/-- Property read `v[k]` where absence yields `undefined`.  Used where the
source guards the access (or where the base is an object); primitives have
no own properties, matching JS, and reads on `null`/`undefined` are modelled
separately by `getMember`. -/
def getProp : JSValue → String → JSValue
  | .obj fields, k => (fields.lookup k).getD .undef
  | _, _ => (.undef)

/-- Unguarded member access `v.k`: throws a `TypeError` on `null` and
`undefined`, as in JS. -/
def getMember (v : JSValue) (k : String) : Except String JSValue :=
  match v with
  | .null => .error ("TypeError: cannot read property '" ++ k ++ "' of null")
  | .undef => .error ("TypeError: cannot read property '" ++ k ++ "' of undefined")
  | v => .ok (v.getProp k)

/-- JS `a || b`: `a` if truthy, else `b`. -/
def jsOr (a b : JSValue) : JSValue := if a.truthy then a else b

mutual

/-- JS string coercion `String(v)`.  Arrays join their elements with `,`
(with `null`/`undefined` elements rendered empty); plain objects render as
`[object Object]`. -/
def jsToString : JSValue → String
  | .null => "null"
  | .undef => "undefined"
  | .bool b => if b then "true" else "false"
  | .num n => toString n
  | .str s => s
  | .arr elems => String.intercalate "," (jsToStringElems elems)
  | .obj _ => "[object Object]"

/-- Element-wise rendering used by JS `Array.prototype.toString`
(`join(",")`): `null` and `undefined` elements render as the empty
string. -/
def jsToStringElems : List JSValue → List String
  | [] => []
  | .null :: rest => "" :: jsToStringElems rest
  | .undef :: rest => "" :: jsToStringElems rest
  | v :: rest => jsToString v :: jsToStringElems rest

end

end JSValue

/-!
## Variable substitution (`JobManager.replaceVariables`)

`JobManager.replaceVariables` (src/src/JobManager.js lines 92-112) rewrites
strings by the global regex `/\{\{\s*vars\.(.*?)\s*\}\}/g` with a replacer
function, recurses element-wise into arrays and value-wise into objects, and
is the identity elsewhere.

The regex is modelled exactly:

* `\s*` is greedy, but since the character that follows it in the pattern
  (`v` resp. `}`) is never a whitespace character, it always consumes the
  maximal whitespace run;
* `(.*?)` is lazy: the capture is the shortest prefix (of non-line-break
  characters) after which `\s*\}\}` matches;
* the scan is left-to-right and resumes after each match (`g` flag).

`\s` is modelled by the ASCII whitespace characters (the Unicode space
class is not exercised by the engine's inputs).
-/

/-- The characters matched by the regex class `\s` (ASCII part). -/
def isJsSpace (c : Char) : Bool :=
  c = ' ' || c = '\t' || c = '\n' || c = '\r' || c = '\x0b' || c = '\x0c'

/-- JS `String.prototype.trim`: strip whitespace from both ends. -/
def jsTrimChars (l : List Char) : List Char :=
  ((l.dropWhile isJsSpace).reverse.dropWhile isJsSpace).reverse

/-- Match the pattern tail `\s*\}\}` at the head of `l`; on success return
the remaining input after the `}}`. -/
def matchClose : List Char → Option (List Char)
  | [] => none
  | c :: cs =>
    if c = '}' then
      match cs with
      | '}' :: rest => some rest
      | _ => none
    else if isJsSpace c then matchClose cs
    else none

/-- Match `\s*vars\.` at the head of `l`; on success return the remaining
input after the dot. -/
def matchVarsDot : List Char → Option (List Char)
  | [] => none
  | c :: cs =>
    if c = 'v' then
      match cs with
      | 'a' :: 'r' :: 's' :: '.' :: rest => some rest
      | _ => none
    else if isJsSpace c then matchVarsDot cs
    else none

/-- Match the lazy group followed by the pattern tail: `(.*?)\s*\}\}`.
Returns the captured group and the input remaining after `}}`.  Lazy
semantics: the group is extended one character at a time, shortest first,
and `.` does not match line breaks. -/
def matchKey : List Char → Option (List Char × List Char)
  | [] => none
  | c :: cs =>
    match matchClose (c :: cs) with
    | some rest => some ([], rest)
    | none =>
      if c = '\n' || c = '\r' then none
      else (matchKey cs).map fun p => (c :: p.1, p.2)

/-- Match the whole pattern `\{\{\s*vars\.(.*?)\s*\}\}` at the head of `l`;
returns the captured key and the remaining input. -/
def matchPlaceholder : List Char → Option (List Char × List Char)
  | '{' :: '{' :: rest =>
    match matchVarsDot rest with
    | some afterDot => matchKey afterDot
    | none => none
  | _ => none

theorem matchClose_length {l r : List Char} (h : matchClose l = some r) :
    r.length ≤ l.length := by
  induction l with
  | nil => simp [matchClose] at h
  | cons c cs ih =>
    unfold matchClose at h
    split at h
    · split at h
      · cases h
        simp
        omega
      · cases h
    · split at h
      · have := ih h
        simp
        omega
      · cases h

theorem matchVarsDot_length {l r : List Char} (h : matchVarsDot l = some r) :
    r.length ≤ l.length := by
  induction l with
  | nil => simp [matchVarsDot] at h
  | cons c cs ih =>
    unfold matchVarsDot at h
    split at h
    · split at h
      · cases h
        simp
        omega
      · cases h
    · split at h
      · have := ih h
        simp
        omega
      · cases h

theorem matchKey_length {l : List Char} {p : List Char × List Char}
    (h : matchKey l = some p) : p.2.length ≤ l.length := by
  induction l generalizing p with
  | nil => simp [matchKey] at h
  | cons c cs ih =>
    unfold matchKey at h
    split at h
    · rename_i rest hclose
      cases h
      exact matchClose_length hclose
    · split at h
      · cases h
      · rcases hk : matchKey cs with _ | q
        · rw [hk] at h; cases h
        · rw [hk] at h
          simp only [Option.map_some', Option.some.injEq] at h
          subst h
          have := ih hk
          simp
          omega

theorem matchPlaceholder_length {l : List Char} {p : List Char × List Char}
    (h : matchPlaceholder l = some p) : p.2.length < l.length := by
  unfold matchPlaceholder at h
  split at h
  · rename_i rest
    split at h
    · rename_i afterDot hdot
      have h1 := matchVarsDot_length hdot
      have h2 := matchKey_length h
      simp
      omega
    · cases h
  · cases h

/-- Variable lookup `variables.hasOwnProperty(k)`.  As in JS, only objects
carry the engine's own properties (primitive variable bags never do). -/
def varsHas : JSValue → String → Bool
  | .obj fields, k => (fields.lookup k).isSome
  | _, _ => false

/-- Variable read `variables[k]` (absent keys yield `undefined`). -/
def varsGet : JSValue → String → JSValue
  | .obj fields, k => (fields.lookup k).getD .undef
  | _, _ => (.undef)

/-- The replacer function of `JobManager.replaceVariables` (src/src/JobManager.js
lines 94-101): trim the captured key; if the variables bag has it, the match
is replaced by `variables[trimmedKey]` (coerced to a string, as
`String.prototype.replace` does with a replacer's return value); otherwise a
warning is logged and the normalized placeholder
`` `{{vars.${trimmedKey}}}` `` is emitted. -/
def substituteKey (vbag : JSValue) (key : List Char) : List Char :=
  let trimmedKey := jsTrimChars key
  if varsHas vbag (String.mk trimmedKey) then
    (JSValue.jsToString (varsGet vbag (String.mk trimmedKey))).data
  else
    "\x7b\x7bvars.".data ++ trimmedKey ++ "\x7d\x7d".data

/-- The left-to-right global scan of `String.prototype.replace` with the
`g`-flagged regex: at each position try the pattern; on a match emit the
replacement and resume after the match, else copy one character.  The
recursion is driven by a fuel argument so the definition is structural
(hence kernel-evaluable); one unit of fuel is spent per position and every
match consumes at least one character (`matchPlaceholder_length`), so fuel
equal to the input length — what `replaceScan` supplies — never runs out
and the `0, c :: cs` branch is unreachable. -/
def replaceScanGo (vbag : JSValue) : Nat → List Char → List Char
  | _, [] => []
  | 0, l => l
  | fuel + 1, c :: cs =>
    match matchPlaceholder (c :: cs) with
    | some p => substituteKey vbag p.1 ++ replaceScanGo vbag fuel p.2
    | none => c :: replaceScanGo vbag fuel cs

/-- The scan at its entry point: fuel is the input length. -/
def replaceScan (vbag : JSValue) (l : List Char) : List Char :=
  replaceScanGo vbag l.length l

/-- String-level substitution: `target.replace(/\{\{\s*vars\.(.*?)\s*\}\}/g, ...)`. -/
def replaceVarsInString (vbag : JSValue) (s : String) : String :=
  String.mk (replaceScan vbag s.data)

mutual

/-- Models `JobManager.replaceVariables(target, variables)`
(src/src/JobManager.js lines 92-112): strings are rewritten by the regex
scan, arrays element-wise, objects value-wise (keys untouched, `for..in`
enumeration order preserved), anything else is returned unchanged. -/
def replaceVariables (target : JSValue) (vbag : JSValue) : JSValue :=
  match target with
  | .str s => .str (replaceVarsInString vbag s)
  | .arr elems => .arr (replaceVariablesList elems vbag)
  | .obj fields => .obj (replaceVariablesObj fields vbag)
  | v => v

/-- The recursion `target.map(item => this.replaceVariables(item, variables))`. -/
def replaceVariablesList (elems : List JSValue) (vbag : JSValue) : List JSValue :=
  match elems with
  | [] => []
  | v :: rest => replaceVariables v vbag :: replaceVariablesList rest vbag

/-- The `for (const key in target)` loop building `newObj`. -/
def replaceVariablesObj (fields : List (String × JSValue)) (vbag : JSValue) :
    List (String × JSValue) :=
  match fields with
  | [] => []
  | (k, v) :: rest => (k, replaceVariables v vbag) :: replaceVariablesObj rest vbag

end

/-!
## Tool capability and registry (`src/src/tools/Tool.js`, `ToolRegistry.js`)

A concrete tool is its name plus its `validate`/`execute` behavior; both may
throw (modelled with `Except String`).  The registry owns an insertion-ordered
name-to-tool mapping (a JS `Map`); every value stored is a `Tool` instance, so
the `instanceof Tool` guard of `register` is satisfied by construction in this
embedding, and registered tools are objects, hence truthy, so `get`'s `!tool`
test is exactly a lookup-failure test.
-/

/-- The execution context built by `JobManager.processJob` (lines 144-148):
`{ jobId: job.id, logger, variables: {} }`.  The logger is omitted (pure
side effect). -/
structure Context where
  jobId : JSValue
  /-- models the `variables` field of the context object -/
  vars : JSValue
deriving Repr

/-- A concrete tool: `name` plus the `validate`/`execute` contract. -/
structure Tool where
  name : String
  validate : JSValue → Except String Unit
  exec : JSValue → Context → Except String JSValue

/-- The registry's `Map` of tools, in insertion order. -/
structure ToolRegistry where
  tools : List (String × Tool)

/-- Models `ToolRegistry.list()`: registered names in registration order. -/
def ToolRegistry.listNames (r : ToolRegistry) : List String := r.tools.map Prod.fst

/-- Models `ToolRegistry.register(tool)` (src/src/tools/ToolRegistry.js lines
18-29): throws if the name is already present, BEFORE inserting, so a failed
registration leaves the map unchanged. -/
def ToolRegistry.register (r : ToolRegistry) (t : Tool) : Except String ToolRegistry :=
  if (r.tools.lookup t.name).isSome then
    .error ("Tool with name '" ++ t.name ++ "' is already registered")
  else
    .ok ⟨r.tools ++ [(t.name, t)]⟩

/-- The message of the `ToolRegistry.get` not-found error (lines 52-55):
lists all currently registered names, or `none` when the registry is
empty. -/
def toolNotFoundMsg (r : ToolRegistry) (name : JSValue) : String :=
  let avail := String.intercalate ", " r.listNames
  "Tool '" ++ JSValue.jsToString name ++ "' not found. Available tools: " ++
    (if avail = "" then "none" else avail)

/-- Models `ToolRegistry.get(name)` (lines 49-58).  The pipeline passes
`processedStep.use`, which need not be a string; a JS `Map` keyed by strings
yields `undefined` for any non-string key, so lookup fails for those. -/
def ToolRegistry.getTool (r : ToolRegistry) (name : JSValue) : Except String Tool :=
  let found : Option Tool :=
    match name with
    | .str s => r.tools.lookup s
    | _ => none
  match found with
  | some t => .ok t
  | none => .error (toolNotFoundMsg r name)

/-- Models `ToolRegistry.execute(name, params, context)` (lines 96-106): resolve,
validate (propagating validation failures), then execute, returning the
tool's result unchanged. -/
def ToolRegistry.executeTool (r : ToolRegistry) (name : JSValue) (params : JSValue)
    (ctx : Context) : Except String JSValue := do
  let t ← r.getTool name
  t.validate params
  t.exec params ctx

/-!
## Step pipeline (`JobManager.processJob`, src/src/JobManager.js lines 117-229)

The pipeline is modelled with an observation layer: alongside its result it
returns the list of dispatches made through `ToolRegistry.execute` — the
tool name, the parameter object and the context object of each call, in
call order.  The YAML parser is an external collaborator and is a parameter
(`yamlLoad`).
-/

/-- One dispatch through `ToolRegistry.execute`: the arguments the pipeline
passed. -/
structure CallRecord where
  name : JSValue
  params : JSValue
  ctx : Context
deriving Repr

/-- The `for (const step of parsedRules.steps)` loop (lines 156-180), with
the running `result`/`executed` accumulators.  Per step: substitute
variables into the whole step object, dispatch `processedStep.use` through
the registry (any throw propagates, aborting the loop), store
`toolResult.result` as the running result if `toolResult` and
`toolResult.result` are truthy (marking `executed`), and break if
`toolResult.shouldContinue === false`. -/
def runSteps (r : ToolRegistry) (vbag : JSValue) (ctx : Context) :
    List JSValue → JSValue → Bool → Except String (JSValue × Bool) × List CallRecord
  | [], result, executed => (.ok (result, executed), [])
  | step :: rest, result, executed =>
    let processedStep := replaceVariables step vbag
    let name := processedStep.getProp "use"
    match r.executeTool name processedStep ctx with
    | .error e => (.error e, [⟨name, processedStep, ctx⟩])
    | .ok toolResult =>
      let hit := toolResult.truthy && (toolResult.getProp "result").truthy
      let result' := if hit then toolResult.getProp "result" else result
      let executed' := executed || hit
      if toolResult.truthy && JSValue.strictEq (toolResult.getProp "shouldContinue") (.bool false) then
        (.ok (result', executed'), [⟨name, processedStep, ctx⟩])
      else
        let next := runSteps r vbag ctx rest result' executed'
        (next.1, ⟨name, processedStep, ctx⟩ :: next.2)

/-- The variable set of a job (line 139):
`job.vars || job.variables || job.params || {}`. -/
def jobVariables (job : JSValue) : JSValue :=
  JSValue.jsOr (job.getProp "vars")
    (JSValue.jsOr (job.getProp "variables")
      (JSValue.jsOr (job.getProp "params") (.obj [])))

/-- The context object of a job (lines 144-148): `jobId` is `job.id` and
`variables` is the EMPTY object — the extracted variable set is not exposed
here. -/
def jobContext (job : JSValue) : Context :=
  ⟨job.getProp "id", .obj []⟩

/-- Optional chaining `base?.k`: `undefined` when `base` is nullish. -/
def optGet (base : JSValue) (k : String) : JSValue :=
  match base with
  | .null => .undef
  | .undef => .undef
  | v => v.getProp k

/-- The legacy single-shot fallback (lines 189-207), reached when no step
set `executed`.  For scrape-like job types it substitutes variables into
`url`/`rules` and dispatches the `offscreen` tool directly; otherwise the
result is the running result (still `null`), or the skipped placeholder.
Returns the value `result` holds afterwards (or the propagated throw) and
the dispatches made. -/
def legacyFallback (r : ToolRegistry) (job : JSValue) (vbag : JSValue) (ctx : Context)
    (result : JSValue) : Except String JSValue × List CallRecord :=
  if JSValue.strictEq (job.getProp "type") (.str "offscreen")
      || JSValue.strictEq (job.getProp "type") (.str "fetch-and-extract") then
    let url := replaceVariables (JSValue.jsOr (optGet (job.getProp "params") "url") (job.getProp "url")) vbag
    let rules := replaceVariables (JSValue.jsOr (optGet (job.getProp "params") "rules") (job.getProp "ruleCollection")) vbag
    if url.truthy then
      let params : JSValue := .obj [("url", url), ("rules", rules)]
      match r.executeTool (.str "offscreen") params ctx with
      | .error e => (.error e, [⟨.str "offscreen", params, ctx⟩])
      | .ok toolResult =>
        match toolResult.getMember "result" with
        | .error e => (.error e, [⟨.str "offscreen", params, ctx⟩])
        | .ok res => (.ok res, [⟨.str "offscreen", params, ctx⟩])
    else
      (.ok result, [])
  else
    (.ok (.obj [("status", .str "skipped"), ("reason", .str "no_steps")]), [])

/-- The outcome `processJob` reports to the API: `completeJob(job.id,
result, metrics)` on success, `reportError(job.id, "PROCESSING_FAILED",
{message})` on any caught exception. -/
inductive JobOutcome where
  | completed (result : JSValue)
  | failed (message : String)
deriving Repr

/-- The step-pipeline phase of `processJob` (lines 150-186): parse the YAML
rules when present and run the steps; parse or execution errors propagate
(the inner `catch` logs and rethrows).  Yields the running
`result`/`executed` pair. -/
def stepsPhase (r : ToolRegistry) (yamlLoad : JSValue → Except String JSValue)
    (job : JSValue) (vbag : JSValue) (ctx : Context) :
    Except String (JSValue × Bool) × List CallRecord :=
  if (job.getProp "ruleCollection").truthy
      && ((job.getProp "ruleCollection").getProp "yamlRules").truthy then
    match yamlLoad ((job.getProp "ruleCollection").getProp "yamlRules") with
    | .error e => (.error e, [])
    | .ok parsedRules =>
      if parsedRules.truthy && (parsedRules.getProp "steps").truthy then
        match parsedRules.getProp "steps" with
        | .arr steps => runSteps r vbag ctx steps .null false
        | .str s => runSteps r vbag ctx (s.data.map fun c => .str (String.mk [c])) .null false
        | _ => (.error "TypeError: parsedRules.steps is not iterable", [])
      else (.ok (.null, false), [])
  else (.ok (.null, false), [])

/-- Models `JobManager.processJob(job)` (lines 117-229): steps phase, then the
legacy fallback when no step produced a (truthy) result, then completion;
any exception is caught at job granularity and reported as a job-level
error.  Also returns every registry dispatch made, in order. -/
def processJob (r : ToolRegistry) (yamlLoad : JSValue → Except String JSValue)
    (job : JSValue) : JobOutcome × List CallRecord :=
  let vbag := jobVariables job
  let ctx := jobContext job
  match stepsPhase r yamlLoad job vbag ctx with
  | (.error e, trace) => (.failed e, trace)
  | (.ok (result, executed), trace) =>
    if executed then (.completed result, trace)
    else
      match legacyFallback r job vbag ctx result with
      | (.error e, trace') => (.failed e, trace ++ trace')
      | (.ok result', trace') => (.completed result', trace ++ trace')

/-!
## Job loop (`JobManager.jobLoop`, src/src/JobManager.js lines 57-87)

One iteration of the `while (this.isRunning)` body.  The poll
(`apiClient.getJob()`) and the job processing/reporting are external
effects, passed as parameters; the function returns the duration of the
sleep that ends the iteration.  The `catch` block swallows every error, so
the result type's `.error` case — an exception escaping the iteration — is
never produced, and the loop always proceeds to its next iteration.
-/

/-- Whether `haystack` contains `needle` as a contiguous substring
(JS `String.prototype.includes`). -/
def containsSeq (needle : List Char) : List Char → Bool
  | [] => needle.isPrefixOf []
  | c :: cs => needle.isPrefixOf (c :: cs) || containsSeq needle cs

/-- The test `error.message.includes('429')` (line 77). -/
def includes429 (msg : String) : Bool := containsSeq "429".data msg.data

/-- One iteration of `jobLoop`: returns the sleep duration (ms) the
iteration ends with.  `interval` is the effective poll interval
`configManager.get('jobInterval', CONFIG.JOB_INTERVAL)`; `poll` is the
outcome of `apiClient.getJob()`; `process` the outcome of
`processJob` / its completion reporting (whose own failures propagate to
this catch). -/
def jobLoopIteration (interval : Int) (poll : Except String JSValue)
    (process : JSValue → Except String Unit) : Except String Int :=
  let body : Except String Int :=
    match poll with
    | .error e => .error e
    | .ok job =>
      if job.truthy && (job.getProp "id").truthy then
        match process job with
        | .error e => .error e
        | .ok _ => .ok interval
      else .ok interval
  match body with
  | .ok sleep => .ok sleep
  | .error e =>
    if includes429 e then .ok (interval * 2)
    else .ok interval

/-!
## Conditional gate tool (`ConditionalGateTool`)

`ConditionalGateTool.evaluate` / `.execute`.  The regex engine
(`new RegExp(pattern, flags)` / `.test`) is an external collaborator,
passed as a `RegexEngine`: `compile` models the constructor (which throws on
an invalid pattern), `test` the match test of a successfully constructed
regex.  JS numeric coercion `Number(v)` is modelled on integers; a coercion
that does not yield a model integer (JS `NaN`, and unmodelled fractional
values) is `none`, and every comparison against `none` is `false`, as all
comparisons with `NaN` are in JS.
-/

/-- The regex collaborator: `compile pat flags` models
`new RegExp(pat, flags)` (error = the constructor's throw message),
`test pat flags input` models `regex.test(input)`. -/
structure RegexEngine where
  compile : String → String → Except String Unit
  test : String → String → String → Bool

/-- Decimal digit run to a number, `none` if empty or non-digits occur. -/
def decDigits : List Char → Option Nat
  | [] => none
  | l => l.foldl (fun acc c =>
      match acc with
      | none => none
      | some n => if c.isDigit then some (n * 10 + (c.toNat - '0'.toNat)) else none)
      (some 0)

/-- JS `Number(string)` on the integer fragment: trimmed; empty means `0`;
an optional sign then decimal digits; everything else (including fractional
or exponent forms, unmodelled here) is `none` (`NaN`). -/
def jsStringToNumber (s : String) : Option Int :=
  match jsTrimChars s.data with
  | [] => some 0
  | '-' :: ds => (decDigits ds).map fun n => -(n : Int)
  | '+' :: ds => (decDigits ds).map fun n => (n : Int)
  | ds => (decDigits ds).map fun n => (n : Int)

/-- JS `Number(v)` coercion (integer model): `null` is `0`, `undefined` is
`NaN`, booleans are `0`/`1`, arrays coerce through their string form
(empty array `0`, singleton through its element, longer arrays `NaN`),
objects are `NaN`. -/
def jsToNumber : JSValue → Option Int
  | .null => some 0
  | .undef => none
  | .bool b => some (if b then 1 else 0)
  | .num n => some n
  | .str s => jsStringToNumber s
  | .arr [] => some 0
  | .arr [v] => jsToNumber v
  | .arr (_ :: _ :: _) => none
  | .obj _ => none

/-- JSON escaping of the two JSON-significant characters (control-character
escapes are not exercised by the engine's messages). -/
def escapeJson (l : List Char) : List Char :=
  l.foldr (fun c acc =>
    (if c = '"' then ['\\', '"'] else if c = '\\' then ['\\', '\\'] else [c]) ++ acc) []

mutual

/-- Models `JSON.stringify(v)` as used in the gate's generated messages.
`JSON.stringify(undefined)` yields no string and template-coerces to
`undefined`, which is what this returns for `undef`. -/
def jsonStringify : JSValue → String
  | .null => "null"
  | .undef => "undefined"
  | .bool b => if b then "true" else "false"
  | .num n => toString n
  | .str s => "\"" ++ String.mk (escapeJson s.data) ++ "\""
  | .arr elems => "[" ++ String.intercalate "," (jsonStringifyList elems) ++ "]"
  | .obj fields => "\x7b" ++ String.intercalate "," (jsonStringifyObj fields) ++ "\x7d"

/-- JSON serialization of array elements. -/
def jsonStringifyList : List JSValue → List String
  | [] => []
  | v :: rest => jsonStringify v :: jsonStringifyList rest

/-- JSON serialization of object entries. -/
def jsonStringifyObj : List (String × JSValue) → List String
  | [] => []
  | (k, v) :: rest => ("\"" ++ k ++ "\":" ++ jsonStringify v) :: jsonStringifyObj rest

end

/-- The case-insensitivity normalizer of `ConditionalGateTool.evaluate`
(part_002 lines 110-115): lower-case strings when `caseSensitive` is falsy,
other values unchanged. -/
def gateNormalize (caseSensitive : JSValue) (v : JSValue) : JSValue :=
  match v with
  | .str s => if !caseSensitive.truthy then .str s.toLower else .str s
  | v => v

/-- Models `ConditionalGateTool.evaluate(value, operator, expected, caseSensitive)`
(part_002 lines 108-187).  The `switch` compares `operator` by `===`
against the eleven operator strings; an unknown operator throws. -/
def gateEvaluate (re : RegexEngine) (value operator expected caseSensitive : JSValue) :
    Except String Bool :=
  let normalizedValue := gateNormalize caseSensitive value
  let normalizedExpected := gateNormalize caseSensitive expected
  if JSValue.strictEq operator (.str "EQUALS") then
    .ok (JSValue.strictEq normalizedValue normalizedExpected)
  else if JSValue.strictEq operator (.str "NOT_EQUALS") then
    .ok (!JSValue.strictEq normalizedValue normalizedExpected)
  else if JSValue.strictEq operator (.str "CONTAINS") then
    match normalizedValue, normalizedExpected with
    | .str a, .str b => .ok (containsSeq b.data a.data)
    | .str _, _ => .error ("CONTAINS operator requires string expected, got " ++ expected.jsTypeof)
    | _, _ => .error ("CONTAINS operator requires string value, got " ++ value.jsTypeof)
  else if JSValue.strictEq operator (.str "NOT_CONTAINS") then
    match normalizedValue, normalizedExpected with
    | .str a, .str b => .ok (!containsSeq b.data a.data)
    | .str _, _ => .error ("NOT_CONTAINS operator requires string expected, got " ++ expected.jsTypeof)
    | _, _ => .error ("NOT_CONTAINS operator requires string value, got " ++ value.jsTypeof)
  else if JSValue.strictEq operator (.str "GREATER_THAN") then
    .ok (match jsToNumber value, jsToNumber expected with
         | some a, some b => a > b
         | _, _ => false)
  else if JSValue.strictEq operator (.str "LESS_THAN") then
    .ok (match jsToNumber value, jsToNumber expected with
         | some a, some b => a < b
         | _, _ => false)
  else if JSValue.strictEq operator (.str "GREATER_THAN_OR_EQUAL") then
    .ok (match jsToNumber value, jsToNumber expected with
         | some a, some b => a ≥ b
         | _, _ => false)
  else if JSValue.strictEq operator (.str "LESS_THAN_OR_EQUAL") then
    .ok (match jsToNumber value, jsToNumber expected with
         | some a, some b => a ≤ b
         | _, _ => false)
  else if JSValue.strictEq operator (.str "MATCHES_PATTERN") then
    -- the inner try/catch (lines 157-166): any throw, including the
    -- non-string `expected` guard, is re-wrapped as "Invalid regex pattern"
    let inner : Except String Bool :=
      match expected with
      | .str pat =>
        match re.compile pat (if caseSensitive.truthy then "" else "i") with
        | .ok _ => .ok (re.test pat (if caseSensitive.truthy then "" else "i") value.jsToString)
        | .error e => .error e
      | _ => .error ("MATCHES_PATTERN operator requires regex pattern string, got " ++ expected.jsTypeof)
    match inner with
    | .ok b => .ok b
    | .error e => .error ("Invalid regex pattern '" ++ expected.jsToString ++ "': " ++ e)
  else if JSValue.strictEq operator (.str "IS_EMPTY") then
    .ok (match value with
         | .null => true
         | .undef => true
         | .str s => s.length = 0
         | .arr elems => elems.length = 0
         | .obj fields => fields.length = 0
         | _ => false)
  else if JSValue.strictEq operator (.str "IS_NOT_EMPTY") then
    .ok (match value with
         | .null => false
         | .undef => false
         | .str s => s.length > 0
         | .arr elems => elems.length > 0
         | .obj fields => fields.length > 0
         | _ => true)
  else
    .error ("Unsupported operator: " ++ operator.jsToString)

/-- The JS destructuring default `caseSensitive = true` of
`ConditionalGateTool.execute` (applies exactly when the property is
`undefined`). -/
def gateCaseSensitive (rule : JSValue) : JSValue :=
  match rule.getProp "caseSensitive" with
  | .undef => .bool true
  | v => v

/-- The JS destructuring default `throwOnFailure = true` of
`ConditionalGateTool.execute`. -/
def gateThrowOnFailure (rule : JSValue) : JSValue :=
  match rule.getProp "throwOnFailure" with
  | .undef => .bool true
  | v => v

/-- The gate's non-throwing failure result `{result: false, shouldContinue: false}`. -/
def gateStop : JSValue := .obj [("result", .bool false), ("shouldContinue", .bool false)]

/-- The gate's success result `{result: true, shouldContinue: true}`. -/
def gatePass : JSValue := .obj [("result", .bool true), ("shouldContinue", .bool true)]

/-- Models `ConditionalGateTool.execute(params, context)` (part_002 lines 55-97).
Destructures `params.rule` (with JS defaults `caseSensitive=true`,
`throwOnFailure=true`), evaluates, and on a false result either throws the
(custom or generated) message or returns `gateStop`; the outer catch
rethrows any evaluation error only when `throwOnFailure` is truthy,
otherwise it also returns `gateStop`. -/
def gateExecute (re : RegexEngine) (params : JSValue) : Except String JSValue :=
  match params.getMember "rule" with
  | .error e => .error e
  | .ok .null => .error "TypeError: cannot destructure rule"
  | .ok .undef => .error "TypeError: cannot destructure rule"
  | .ok rule =>
    let value := rule.getProp "value"
    let operator := rule.getProp "operator"
    let expected := rule.getProp "expected"
    let caseSensitive : JSValue := gateCaseSensitive rule
    let throwOnFailure : JSValue := gateThrowOnFailure rule
    let errorMessage := rule.getProp "errorMessage"
    let tryBlock : Except String JSValue :=
      match gateEvaluate re value operator expected caseSensitive with
      | .error e => .error e
      | .ok result =>
        if !result then
          let message := JSValue.jsOr errorMessage
            (.str ("Condition failed: " ++ jsonStringify value ++ " " ++ operator.jsToString
              ++ " " ++ jsonStringify expected))
          if throwOnFailure.truthy then .error message.jsToString
          else .ok gateStop
        else .ok gatePass
    match tryBlock with
    | .ok v => .ok v
    | .error e => if throwOnFailure.truthy then .error e else .ok gateStop

/-!
## Fetch tool (`FetchTool.execute`, src/src/tools/FetchTool.js lines 36-98)

The HTTP client (axios) is the external collaborator.  Because the request
is issued with `validateStatus: () => true`, axios resolves with a response
for EVERY received HTTP status (including 4xx/5xx) and rejects only on
transport-level failures, which carry an optional `error.code`.  That
boundary is the `FetchOutcome` type below.
-/

/-- What the HTTP collaborator did: a received response (any status), or a
transport-level failure with its `error.code` (`none` models an absent
code) and `error.message`. -/
inductive FetchOutcome where
  | response (status : Int) (statusText : String) (headers : JSValue) (data : JSValue)
  | failure (code : Option String) (message : String)

/-- The destructuring default `timeout = 30000` of `FetchTool.execute`. -/
def fetchTimeout (params : JSValue) : JSValue :=
  match params.getProp "timeout" with
  | .undef => .num 30000
  | v => v

/-- Models `FetchTool.execute(params, context)` (lines 36-98): on a response —
any status, 4xx/5xx included — build `{status, statusText, headers, data}`
and return `{result, shouldContinue: true, output}` without throwing; on a
transport failure, categorize by `error.code` into four distinct messages
(timeout / host-not-found / connection-refused / other network error) and
throw. -/
def fetchExecute (outcome : FetchOutcome) (params : JSValue) : Except String JSValue :=
  let url := params.getProp "url"
  let timeout : JSValue := fetchTimeout params
  let output := params.getProp "output"
  match outcome with
  | .response status statusText headers data =>
    let result : JSValue := .obj
      [("status", .num status), ("statusText", .str statusText),
       ("headers", headers), ("data", data)]
    .ok (.obj
      [("result", result), ("shouldContinue", .bool true),
       ("output", if output.truthy then .obj [(output.jsToString, result)] else .undef)])
  | .failure code message =>
    if code = some "ECONNABORTED" then
      .error ("Request timeout after " ++ timeout.jsToString ++ "ms")
    else if code = some "ENOTFOUND" then
      .error ("Host not found: " ++ url.jsToString)
    else if code = some "ECONNREFUSED" then
      .error ("Connection refused: " ++ url.jsToString)
    else
      .error ("Network error: " ++ message)

/-!
## Supporting lemmas
-/

theorem lookup_append {α β : Type} [BEq α] (k : α) (l1 l2 : List (α × β)) :
    List.lookup k (l1 ++ l2) = (List.lookup k l1).or (List.lookup k l2) := by
  induction l1 with
  | nil => simp
  | cons p rest ih =>
    rcases p with ⟨a, b⟩
    by_cases hk : k == a
    · simp [List.lookup, hk]
    · simp only [List.cons_append, List.lookup]
      rw [Bool.not_eq_true] at hk
      rw [hk]
      exact ih

/-!
## C7 — duplicate registration is rejected and does not replace
-/

/-- C7: for every registry state and every pair of tools with equal names,
registering the second after a successful registration of the first throws
the duplicate-name error, and (since `register` throws before touching the
map) the registry still resolves that name to the first tool. -/
theorem register_duplicate_rejected (r r1 : ToolRegistry) (t1 t2 : Tool)
    (hname : t2.name = t1.name) (hreg : r.register t1 = .ok r1) :
    r1.register t2 = .error ("Tool with name '" ++ t2.name ++ "' is already registered")
      ∧ r1.getTool (.str t1.name) = .ok t1 := by
  unfold ToolRegistry.register at hreg
  split at hreg
  · cases hreg
  · rename_i hnone
    cases hreg
    have hfound : List.lookup t1.name (r.tools ++ [(t1.name, t1)]) = some t1 := by
      rw [lookup_append]
      have hnone' : List.lookup t1.name r.tools = none := by
        cases h : List.lookup t1.name r.tools with
        | none => rfl
        | some v => rw [h] at hnone; simp at hnone
      rw [hnone']
      simp [List.lookup]
    constructor
    · unfold ToolRegistry.register
      rw [hname]
      simp only [hfound]
      simp
    · unfold ToolRegistry.getTool
      simp only [hfound]

def regToolFirst : Tool :=
  ⟨"gate", fun _ => .ok (), fun _ _ => .ok .null⟩

def regToolSecond : Tool :=
  ⟨"gate", fun _ => .ok (), fun _ _ => .ok (.bool true)⟩

/-- Witness for C7 at a concrete registry: after registering `regToolFirst`
under the name `gate` into an empty registry, registering `regToolSecond`
(same name) fails and `gate` still resolves to `regToolFirst`. -/
theorem register_duplicate_rejected_witness :
    ToolRegistry.register ⟨[("gate", regToolFirst)]⟩ regToolSecond
        = .error "Tool with name 'gate' is already registered"
      ∧ ToolRegistry.getTool ⟨[("gate", regToolFirst)]⟩ (.str "gate") = .ok regToolFirst :=
  register_duplicate_rejected ⟨[]⟩ ⟨[("gate", regToolFirst)]⟩ regToolFirst regToolSecond rfl rfl

/-!
## C8 — FetchTool: HTTP statuses are data, only transport failures throw
-/

theorem data_head_append (a b : String) (c : Char) (h : a.data.head? = some c) :
    (a ++ b).data.head? = some c := by
  rw [String.data_append, List.head?_append, h]
  rfl

theorem strings_ne_of_head {a b : String} {c d : Char} (hc : a.data.head? = some c)
    (hd : b.data.head? = some d) (hne : c ≠ d) : a ≠ b := by
  intro h
  rw [h] at hc
  rw [hc] at hd
  cases hd
  exact hne rfl

/-- C8: `FetchTool.execute` never throws on a received HTTP response — in
particular 4xx/5xx error statuses — returning `{status, statusText,
headers, data}` as the result with `shouldContinue: true`; it throws
exactly on transport-level failures, categorized by `error.code` into four
message categories (timeout, host-not-found, connection-refused, other
network error) whose messages are pairwise distinct for all inputs. -/
theorem fetch_http_error_vs_transport :
    (∀ (params : JSValue) (status : Int) (statusText : String) (headers data : JSValue),
      400 ≤ status →
      ∃ v, fetchExecute (.response status statusText headers data) params = .ok v
        ∧ v.getProp "result" = .obj
            [("status", .num status), ("statusText", .str statusText),
             ("headers", headers), ("data", data)]
        ∧ v.getProp "shouldContinue" = .bool true)
    ∧ (∀ (params : JSValue) (code : Option String) (message : String),
        ∃ e, fetchExecute (.failure code message) params = .error e)
    ∧ (∀ (params : JSValue) (message : String),
        fetchExecute (.failure (some "ECONNABORTED") message) params =
          .error ("Request timeout after " ++ (fetchTimeout params).jsToString ++ "ms"))
    ∧ (∀ (params : JSValue) (message : String),
        fetchExecute (.failure (some "ENOTFOUND") message) params =
          .error ("Host not found: " ++ (params.getProp "url").jsToString))
    ∧ (∀ (params : JSValue) (message : String),
        fetchExecute (.failure (some "ECONNREFUSED") message) params =
          .error ("Connection refused: " ++ (params.getProp "url").jsToString))
    ∧ (∀ (params : JSValue) (code : Option String) (message : String),
        code ≠ some "ECONNABORTED" → code ≠ some "ENOTFOUND" → code ≠ some "ECONNREFUSED" →
        fetchExecute (.failure code message) params = .error ("Network error: " ++ message))
    ∧ (∀ a b c d : String,
        ("Request timeout after " ++ a ++ "ms") ≠ ("Host not found: " ++ b)
        ∧ ("Request timeout after " ++ a ++ "ms") ≠ ("Connection refused: " ++ c)
        ∧ ("Request timeout after " ++ a ++ "ms") ≠ ("Network error: " ++ d)
        ∧ ("Host not found: " ++ b) ≠ ("Connection refused: " ++ c)
        ∧ ("Host not found: " ++ b) ≠ ("Network error: " ++ d)
        ∧ ("Connection refused: " ++ c) ≠ ("Network error: " ++ d)) := by
  refine ⟨?_, ?_, ?_, ?_, ?_, ?_, ?_⟩
  · intro params status statusText headers data _
    refine ⟨_, rfl, ?_, ?_⟩ <;> simp [JSValue.getProp, List.lookup]
  · intro params code message
    simp only [fetchExecute]
    by_cases h1 : code = some "ECONNABORTED"
    · simp [h1]
    · by_cases h2 : code = some "ENOTFOUND"
      · simp [h1, h2]
      · by_cases h3 : code = some "ECONNREFUSED"
        · simp [h1, h2, h3]
        · simp [h1, h2, h3]
  · intro params message
    rfl
  · intro params message
    rfl
  · intro params message
    rfl
  · intro params code message h1 h2 h3
    simp only [fetchExecute]
    simp [h1, h2, h3]
  · intro a b c d
    have hR : ∀ x : String, ("Request timeout after " ++ a ++ "ms" : String).data.head? = some 'R' := by
      intro _
      apply data_head_append
      apply data_head_append
      rfl
    refine ⟨?_, ?_, ?_, ?_, ?_, ?_⟩
    · exact strings_ne_of_head (hR "") (data_head_append _ _ _ rfl) (by decide)
    · exact strings_ne_of_head (hR "") (data_head_append _ _ _ rfl) (by decide)
    · exact strings_ne_of_head (hR "") (data_head_append _ _ _ rfl) (by decide)
    · exact strings_ne_of_head (data_head_append _ _ _ rfl) (data_head_append _ _ _ rfl) (by decide)
    · exact strings_ne_of_head (data_head_append _ _ _ rfl) (data_head_append _ _ _ rfl) (by decide)
    · exact strings_ne_of_head (data_head_append _ _ _ rfl) (data_head_append _ _ _ rfl) (by decide)

/-- Witness for C8 at concrete inputs: a 404 response is returned as data
with `shouldContinue: true`, and a concrete timeout failure throws the
timeout message. -/
theorem fetch_http_error_vs_transport_witness :
    (∃ v, fetchExecute (.response 404 "Not Found" (.obj []) (.str "body"))
            (.obj [("url", .str "http://x")]) = .ok v
        ∧ v.getProp "result" = .obj
            [("status", .num 404), ("statusText", .str "Not Found"),
             ("headers", .obj []), ("data", .str "body")]
        ∧ v.getProp "shouldContinue" = .bool true)
    ∧ fetchExecute (.failure (some "ECONNABORTED") "m") (.obj [("url", .str "http://x")]) =
        .error ("Request timeout after " ++
          (fetchTimeout (.obj [("url", .str "http://x")])).jsToString ++ "ms") :=
  ⟨fetch_http_error_vs_transport.1 (.obj [("url", .str "http://x")]) 404 "Not Found"
      (.obj []) (.str "body") (by norm_num),
   (fetch_http_error_vs_transport.2.2.1) (.obj [("url", .str "http://x")]) "m"⟩

/-!
## C9 — job-loop backoff on rate-limit errors

The loop's `catch` inspects `error.message.includes('429')` no matter which
awaited call inside the `try` threw — the poll (`getJob`) or the
processing/reporting path — so the doubled backoff applies to every caught
error whose message contains `429`, not only to poll errors.  The claim as
stated ("every other error … sleeps exactly the normal effective interval")
fails for a processing/reporting error that mentions 429; the theorem below
proves the code's actual policy.
-/

/-- C9 (amended): in one job-loop iteration, a poll error containing `429`
makes the iteration end with a sleep of exactly twice the effective
interval; a poll error not containing `429` sleeps the normal interval; an
error thrown while processing/reporting a fetched job follows the same
`429` string test; and no input makes the iteration itself throw — the loop
always continues. -/
theorem job_loop_backoff (interval : Int) (process : JSValue → Except String Unit) :
    (∀ e, includes429 e = true →
      jobLoopIteration interval (.error e) process = .ok (interval * 2))
    ∧ (∀ e, includes429 e = false →
        jobLoopIteration interval (.error e) process = .ok interval)
    ∧ (∀ job e, (job.truthy && (job.getProp "id").truthy) = true →
        process job = .error e →
        jobLoopIteration interval (.ok job) process =
          .ok (if includes429 e then interval * 2 else interval))
    ∧ (∀ poll, ∃ sleep, jobLoopIteration interval poll process = .ok sleep) := by
  refine ⟨?_, ?_, ?_, ?_⟩
  · intro e he
    simp [jobLoopIteration, he]
  · intro e he
    simp [jobLoopIteration, he]
  · intro job e hjob hproc
    simp only [jobLoopIteration, hjob, hproc, if_true]
    split <;> simp_all
  · intro poll
    cases poll with
    | error e =>
      simp only [jobLoopIteration]
      split <;> exact ⟨_, rfl⟩
    | ok job =>
      simp only [jobLoopIteration]
      by_cases hjob : (job.truthy && (job.getProp "id").truthy) = true
      · simp only [hjob, if_true]
        cases hproc : process job with
        | error e =>
          simp only [hproc]
          split <;> exact ⟨_, rfl⟩
        | ok u => exact ⟨_, rfl⟩
      · simp only [hjob, if_false, Bool.false_eq_true]
        exact ⟨_, rfl⟩

def jobWithId : JSValue := .obj [("id", .str "j1")]

/-- Counterexample to C9 as stated: an iteration in which the POLL raised
no error, but processing/reporting the fetched job threw an error whose
message contains `429`, sleeps double the interval (2000 for interval
1000), not "exactly the normal effective interval" as the claim requires
for every non-poll-429 error. -/
theorem job_loop_c9_counterexample :
    jobLoopIteration 1000 (.ok jobWithId)
        (fun _ => .error "Request failed with status code 429") = .ok 2000
      ∧ (2000 : Int) ≠ 1000 :=
  ⟨rfl, by decide⟩

/-- Witness for the amended C9 at concrete inputs: a poll error containing
`429` doubles the 500ms interval to 1000; one without `429` sleeps 500. -/
theorem job_loop_backoff_witness :
    jobLoopIteration 500 (.error "HTTP 429") (fun _ => .ok ()) = .ok 1000
      ∧ jobLoopIteration 500 (.error "no job available") (fun _ => .ok ()) = .ok 500 := by
  constructor
  · have h := (job_loop_backoff 500 (fun _ => .ok ())).1 "HTTP 429" (by decide)
    simpa using h
  · exact (job_loop_backoff 500 (fun _ => .ok ())).2.1 "no job available" (by decide)

/-!
## C6 — MATCHES_PATTERN with an invalid regex pattern

`evaluate` wraps the `new RegExp` constructor in a try/catch and rethrows
any failure as a descriptive `Invalid regex pattern` error; but `execute`'s
outer catch rethrows that error ONLY when `throwOnFailure` is truthy — with
`throwOnFailure: false` the tool swallows it and returns
`{result: false, shouldContinue: false}`.  So the claim's "fails with a
descriptive error … regardless of the value of throwOnFailure" does not
hold; what holds is that the tool never returns a passing result.
-/

/-- C6 (amended): for every regex engine behavior on which the pattern
fails to compile, `ConditionalGateTool.execute` with `MATCHES_PATTERN`
throws the descriptive `Invalid regex pattern '<pattern>': <reason>` error
when `throwOnFailure` is truthy (its default), and returns
`{result: false, shouldContinue: false}` when `throwOnFailure` is falsy;
in neither case does it return a passing result. -/
theorem gate_invalid_regex_behavior (re : RegexEngine) (params rule : JSValue)
    (pat err : String)
    (hrule : params.getProp "rule" = rule)
    (hparams : params ≠ .null) (hparams' : params ≠ .undef)
    (hrulen : rule ≠ .null) (hrulen' : rule ≠ .undef)
    (hop : rule.getProp "operator" = .str "MATCHES_PATTERN")
    (hexp : rule.getProp "expected" = .str pat)
    (hcompile : re.compile pat (if (gateCaseSensitive rule).truthy then "" else "i")
      = .error err) :
    gateExecute re params =
      (if (gateThrowOnFailure rule).truthy then
        .error ("Invalid regex pattern '" ++ pat ++ "': " ++ err)
      else .ok gateStop)
    ∧ gateExecute re params ≠ .ok gatePass := by
  have heval : gateEvaluate re (rule.getProp "value") (.str "MATCHES_PATTERN")
      (.str pat) (gateCaseSensitive rule)
      = .error ("Invalid regex pattern '" ++ pat ++ "': " ++ err) := by
    simp only [gateEvaluate, JSValue.strictEq]
    simp only [show (("MATCHES_PATTERN" == "EQUALS") : Bool) = false from rfl,
      show (("MATCHES_PATTERN" == "NOT_EQUALS") : Bool) = false from rfl,
      show (("MATCHES_PATTERN" == "CONTAINS") : Bool) = false from rfl,
      show (("MATCHES_PATTERN" == "NOT_CONTAINS") : Bool) = false from rfl,
      show (("MATCHES_PATTERN" == "GREATER_THAN") : Bool) = false from rfl,
      show (("MATCHES_PATTERN" == "LESS_THAN") : Bool) = false from rfl,
      show (("MATCHES_PATTERN" == "GREATER_THAN_OR_EQUAL") : Bool) = false from rfl,
      show (("MATCHES_PATTERN" == "LESS_THAN_OR_EQUAL") : Bool) = false from rfl,
      show (("MATCHES_PATTERN" == "MATCHES_PATTERN") : Bool) = true from rfl]
    simp only [Bool.false_eq_true, if_false, if_true, hcompile]
    simp [JSValue.jsToString]
  have hmain : gateExecute re params =
      (if (gateThrowOnFailure rule).truthy then
        .error ("Invalid regex pattern '" ++ pat ++ "': " ++ err)
      else .ok gateStop) := by
    unfold gateExecute
    have hmem : params.getMember "rule" = .ok rule := by
      cases params <;> simp_all [JSValue.getMember]
    rw [hmem]
    cases rule with
    | null => exact absurd rfl hrulen
    | undef => exact absurd rfl hrulen'
    | bool b => simp [JSValue.getProp] at hop
    | num n => simp [JSValue.getProp] at hop
    | str s => simp [JSValue.getProp] at hop
    | arr elems => simp [JSValue.getProp] at hop
    | obj flds =>
      simp only [hop, hexp, heval]
  exact ⟨hmain, by
    rw [hmain]
    split
    · intro h; cases h
    · intro h
      rw [Except.ok.injEq] at h
      simp [gateStop, gatePass] at h⟩

/-- A regex-engine behavior on which compilation fails (as `new RegExp("[")`
does, with a "missing ]" SyntaxError). -/
def invalidRegexEngine : RegexEngine :=
  ⟨fun _ _ => .error "Invalid regular expression: missing ]", fun _ _ _ => false⟩

/-- Counterexample to C6 as stated: with `throwOnFailure: false` and an
`expected` the engine cannot compile, `ConditionalGateTool.execute` does
NOT fail with an error — it returns `{result: false, shouldContinue:
false}` normally, because the outer catch swallows the evaluation error
when `throwOnFailure` is falsy. -/
theorem gate_c6_counterexample :
    gateExecute invalidRegexEngine
        (.obj [("rule", .obj
          [("value", .str "test"), ("operator", .str "MATCHES_PATTERN"),
           ("expected", .str "["), ("throwOnFailure", .bool false)])])
      = .ok (.obj [("result", .bool false), ("shouldContinue", .bool false)]) := rfl

/-- Witness for the amended C6 at concrete inputs: with the default
`throwOnFailure` the tool throws the descriptive invalid-pattern error, and
it never returns the passing result. -/
theorem gate_invalid_regex_behavior_witness :
    gateExecute invalidRegexEngine
        (.obj [("rule", .obj
          [("value", .str "test"), ("operator", .str "MATCHES_PATTERN"),
           ("expected", .str "[")])])
      = .error "Invalid regex pattern '[': Invalid regular expression: missing ]" := by
  have h := gate_invalid_regex_behavior invalidRegexEngine
    (.obj [("rule", .obj
      [("value", .str "test"), ("operator", .str "MATCHES_PATTERN"),
       ("expected", .str "[")])])
    (.obj [("value", .str "test"), ("operator", .str "MATCHES_PATTERN"),
       ("expected", .str "[")])
    "[" "Invalid regular expression: missing ]"
    rfl (by intro h; cases h) (by intro h; cases h)
    (by intro h; cases h) (by intro h; cases h)
    rfl rfl rfl
  exact h.1.trans rfl

/-!
## C4 / C5 — substitution round-trip and unknown-key behavior

Helper lemmas about scanning a single placeholder whose key consists of
"plain" characters: characters that are neither `\s`-whitespace (which the
pattern would absorb or the `trim` would strip) nor `}` (which could close
the lazy group early).
-/

/-- A key character that the placeholder regex captures verbatim: not
whitespace (so `\s*`/`trim` leave it alone; this also excludes the line
breaks that `.` refuses) and not `}` (so the lazy group cannot stop early
inside the key). -/
def plainKeyChar (c : Char) : Bool := !isJsSpace c && !(c = '}')

theorem isJsSpace_ne_rbrace {c : Char} (h : isJsSpace c = true) : c ≠ '}' := by
  intro he
  subst he
  simp [isJsSpace] at h

theorem isJsSpace_ne_v {c : Char} (h : isJsSpace c = true) : c ≠ 'v' := by
  intro he
  subst he
  simp [isJsSpace] at h

theorem matchClose_plain_head {c : Char} (l : List Char) (h : plainKeyChar c = true) :
    matchClose (c :: l) = none := by
  have h1 : isJsSpace c = false := by
    simp [plainKeyChar] at h
    exact h.1
  have h2 : ¬(c = '}') := by
    simp [plainKeyChar] at h
    exact h.2
  unfold matchClose
  rw [if_neg h2, if_neg (by simp [h1])]

theorem matchClose_spaces (w rest : List Char) (hw : ∀ c ∈ w, isJsSpace c = true) :
    matchClose (w ++ '}' :: '}' :: rest) = some rest := by
  induction w with
  | nil => rfl
  | cons c cs ih =>
    have hc := hw c (by simp)
    have hne : ¬(c = '}') := isJsSpace_ne_rbrace hc
    rw [List.cons_append]
    unfold matchClose
    rw [if_neg hne, if_pos hc]
    exact ih (fun d hd => hw d (by simp [hd]))

theorem matchKey_of_close {l rest : List Char} (h : matchClose l = some rest) :
    matchKey l = some ([], rest) := by
  cases l with
  | nil => simp [matchClose] at h
  | cons c cs =>
    unfold matchKey
    rw [h]

theorem matchKey_plain (kd w rest : List Char) (hk : ∀ c ∈ kd, plainKeyChar c = true)
    (hw : ∀ c ∈ w, isJsSpace c = true) :
    matchKey (kd ++ w ++ '}' :: '}' :: rest) = some (kd, rest) := by
  induction kd with
  | nil =>
    rw [List.nil_append]
    exact matchKey_of_close (matchClose_spaces w rest hw)
  | cons c cs ih =>
    have hc := hk c (by simp)
    have hcs : ∀ d ∈ cs, plainKeyChar d = true := fun d hd => hk d (by simp [hd])
    have hsp : isJsSpace c = false := by
      have h' := hc
      simp [plainKeyChar] at h'
      exact h'.1
    have hnl : ¬((c = '\n' || c = '\r') = true) := by
      intro hcon
      simp at hcon
      rcases hcon with h | h <;> (subst h; simp [isJsSpace] at hsp)
    simp only [List.cons_append, List.append_eq, matchKey]
    split
    · rename_i rest' hclose
      rw [matchClose_plain_head _ hc] at hclose
      cases hclose
    · rw [if_neg hnl, ih hcs]
      rfl

theorem matchVarsDot_spaces (w rest : List Char) (hw : ∀ c ∈ w, isJsSpace c = true) :
    matchVarsDot (w ++ 'v' :: 'a' :: 'r' :: 's' :: '.' :: rest) = some rest := by
  induction w with
  | nil => rfl
  | cons c cs ih =>
    have hc := hw c (by simp)
    rw [List.cons_append]
    unfold matchVarsDot
    rw [if_neg (isJsSpace_ne_v hc), if_pos hc]
    exact ih (fun d hd => hw d (by simp [hd]))

theorem jsTrimChars_no_space (l : List Char) (h : ∀ c ∈ l, isJsSpace c = false) :
    jsTrimChars l = l := by
  unfold jsTrimChars
  have h1 : l.dropWhile isJsSpace = l := by
    cases l with
    | nil => rfl
    | cons c cs =>
      rw [List.dropWhile_cons, h c (by simp)]
      simp
  rw [h1]
  have h2 : l.reverse.dropWhile isJsSpace = l.reverse := by
    cases hr : l.reverse with
    | nil => rfl
    | cons c cs =>
      have hc : c ∈ l := by
        rw [← List.mem_reverse, hr]
        simp
      rw [List.dropWhile_cons, h c hc]
      simp
  rw [h2, List.reverse_reverse]

/-- Scanning a string that is exactly one placeholder
`{{<w1>vars.<kd><w2>}}` (plain key `kd`, whitespace runs `w1`, `w2`)
produces exactly the replacer's output for key `kd`. -/
theorem replaceScan_placeholder (vbag : JSValue) (w1 kd w2 : List Char)
    (hw1 : ∀ c ∈ w1, isJsSpace c = true) (hk : ∀ c ∈ kd, plainKeyChar c = true)
    (hw2 : ∀ c ∈ w2, isJsSpace c = true) :
    replaceScan vbag
        ('{' :: '{' :: (w1 ++ 'v' :: 'a' :: 'r' :: 's' :: '.' :: (kd ++ w2 ++ ['}', '}'])))
      = substituteKey vbag kd := by
  have hmp : matchPlaceholder
      ('{' :: '{' :: (w1 ++ 'v' :: 'a' :: 'r' :: 's' :: '.' :: (kd ++ w2 ++ ['}', '}'])))
      = some (kd, []) := by
    simp only [matchPlaceholder]
    split
    · rename_i afterDot hafter
      rw [matchVarsDot_spaces w1 _ hw1] at hafter
      cases hafter
      exact matchKey_plain kd w2 [] hk hw2
    · rename_i hafter
      rw [matchVarsDot_spaces w1 _ hw1] at hafter
      cases hafter
  unfold replaceScan
  simp only [List.length_cons]
  simp only [replaceScanGo, hmp]
  simp

/-- C4 (amended): the substitution round-trip holds when `variables[k]` is
a string (so that `String.prototype.replace`'s coercion of the replacer's
return value is the identity) and `k` consists of plain key characters (no
whitespace, no `}`): substituting the single-placeholder string
`"{{vars." + k + "}}"` yields exactly `variables[k]`. -/
theorem substitute_roundtrip (fields : List (String × JSValue)) (k s : String)
    (hlook : fields.lookup k = some (.str s))
    (hplain : ∀ c ∈ k.data, plainKeyChar c = true) :
    replaceVariables (.str ("\x7b\x7bvars." ++ k ++ "\x7d\x7d")) (.obj fields) = .str s := by
  have hsp := replaceScan_placeholder (.obj fields) [] k.data []
    (by simp) hplain (by simp)
  simp only [List.nil_append, List.append_nil] at hsp
  have hnospace : ∀ c ∈ k.data, isJsSpace c = false := by
    intro c hc
    have := hplain c hc
    simp [plainKeyChar] at this
    exact this.1
  simp only [replaceVariables, replaceVarsInString]
  rw [show ("\x7b\x7bvars." ++ k ++ "\x7d\x7d").data
      = '{' :: '{' :: 'v' :: 'a' :: 'r' :: 's' :: '.' :: (k.data ++ ['}', '}']) from rfl]
  rw [hsp]
  simp only [substituteKey, jsTrimChars_no_space k.data hnospace]
  rw [show String.mk k.data = k from rfl]
  simp [varsHas, varsGet, hlook, JSValue.jsToString]

/-- Counterexample to C4 as stated: for a non-string variable value the
round-trip fails `===`: the replacer's return value is coerced to a string
by `String.prototype.replace`, so substituting `"{{vars.k}}"` with
`variables = {k: 5}` yields the STRING `"5"`, which is not strictly equal
to the number `5`. -/
theorem substitute_roundtrip_counterexample :
    replaceVariables (.str "\x7b\x7bvars.k\x7d\x7d") (.obj [("k", .num 5)]) = .str "5"
      ∧ JSValue.strictEq (.str "5") (.num 5) = false
      ∧ JSValue.str "5" ≠ JSValue.num 5 :=
  ⟨rfl, rfl, fun h => JSValue.noConfusion h⟩

/-- Witness for the amended C4 at a concrete input:
`substitute("{{vars.k}}", {k: "v"})` is `"v"`. -/
theorem substitute_roundtrip_witness :
    replaceVariables (.str "\x7b\x7bvars.k\x7d\x7d") (.obj [("k", .str "v")]) = .str "v" :=
  substitute_roundtrip [("k", .str "v")] "k" "v" rfl (by decide)

/-- C5 (amended): substituting a single placeholder `{{<w1>vars.<k><w2>}}`
(whitespace runs `w1`, `w2`; plain key `k`) whose key is absent from the
variables bag emits the NORMALIZED placeholder `` `{{vars.${k}}}` `` — the
replacer rebuilds it from the trimmed key, dropping the whitespace that
was inside the braces — and not the verbatim original text. -/
theorem substitute_unknown_normalizes (fields : List (String × JSValue)) (k : String)
    (w1 w2 : List Char)
    (hw1 : ∀ c ∈ w1, isJsSpace c = true) (hw2 : ∀ c ∈ w2, isJsSpace c = true)
    (hplain : ∀ c ∈ k.data, plainKeyChar c = true)
    (hlook : fields.lookup k = none) :
    replaceVariables
        (.str (String.mk ('{' :: '{' :: (w1 ++ 'v' :: 'a' :: 'r' :: 's' :: '.' ::
          (k.data ++ w2 ++ ['}', '}']))))) (.obj fields)
      = .str ("\x7b\x7bvars." ++ k ++ "\x7d\x7d") := by
  have hnospace : ∀ c ∈ k.data, isJsSpace c = false := by
    intro c hc
    have := hplain c hc
    simp [plainKeyChar] at this
    exact this.1
  simp only [replaceVariables, replaceVarsInString]
  rw [replaceScan_placeholder (.obj fields) w1 k.data w2 hw1 hplain hw2]
  simp only [substituteKey, jsTrimChars_no_space k.data hnospace]
  rw [show String.mk k.data = k from rfl]
  simp only [varsHas, hlook, Option.isSome_none, Bool.false_eq_true, if_false]
  rfl

/-- Counterexample to C5 as stated: the unknown-key placeholder is NOT left
verbatim when it contains whitespace inside the braces —
`substitute("{{ vars.x }}", {})` returns the normalized `"{{vars.x}}"`,
which differs from the input. -/
theorem substitute_unknown_counterexample :
    replaceVariables (.str "\x7b\x7b vars.x \x7d\x7d") (.obj []) = .str "\x7b\x7bvars.x\x7d\x7d"
      ∧ ("\x7b\x7bvars.x\x7d\x7d" : String) ≠ "\x7b\x7b vars.x \x7d\x7d" :=
  ⟨rfl, by decide⟩

/-- Witness for the amended C5 at a concrete input:
`substitute("{{ vars.q }}", {})` is the normalized `"{{vars.q}}"`. -/
theorem substitute_unknown_normalizes_witness :
    replaceVariables (.str "\x7b\x7b vars.q \x7d\x7d") (.obj []) = .str "\x7b\x7bvars.q\x7d\x7d" :=
  substitute_unknown_normalizes [] "q" [' '] [' ']
    (by decide) (by decide) (by decide) rfl

/-!
## Pipeline lemmas shared by C1, C2, C3 and C10
-/

/-- When the job carries YAML rules that parse to a truthy object with an
array `steps` field, the steps phase is exactly the step loop over that
array with `result = null`, `executed = false`. -/
theorem stepsPhase_of_steps (r : ToolRegistry) (yamlLoad : JSValue → Except String JSValue)
    (job parsed : JSValue) (steps : List JSValue)
    (hrc : (job.getProp "ruleCollection").truthy = true)
    (hyr : ((job.getProp "ruleCollection").getProp "yamlRules").truthy = true)
    (hparse : yamlLoad ((job.getProp "ruleCollection").getProp "yamlRules") = .ok parsed)
    (hptruthy : parsed.truthy = true)
    (hsteps : parsed.getProp "steps" = .arr steps) :
    stepsPhase r yamlLoad job (jobVariables job) (jobContext job)
      = runSteps r (jobVariables job) (jobContext job) steps .null false := by
  unfold stepsPhase
  rw [hrc, hyr]
  simp only [Bool.and_self, if_true]
  simp only [hparse]
  have harr : (JSValue.arr steps).truthy = true := rfl
  simp only [hptruthy, hsteps, harr, Bool.and_self, if_true]

/-- A steps-phase error aborts the job: `processJob` reports the failure
and makes no further dispatches. -/
theorem processJob_of_phase_error (r : ToolRegistry) (yamlLoad : JSValue → Except String JSValue)
    (job : JSValue) (e : String) (tr : List CallRecord)
    (h : stepsPhase r yamlLoad job (jobVariables job) (jobContext job) = (.error e, tr)) :
    processJob r yamlLoad job = (.failed e, tr) := by
  simp only [processJob]
  rw [h]


/-- When the steps phase ends with `executed = true`, `processJob` completes
with the running result and skips the legacy fallback. -/
theorem processJob_of_phase_executed (r : ToolRegistry) (yamlLoad : JSValue → Except String JSValue)
    (job : JSValue) (res : JSValue) (tr : List CallRecord)
    (h : stepsPhase r yamlLoad job (jobVariables job) (jobContext job) = (.ok (res, true), tr)) :
    processJob r yamlLoad job = (.completed res, tr) := by
  simp only [processJob]
  rw [h]
  rfl

/-- Dispatching an unregistered (string) tool name throws the not-found
error out of `ToolRegistry.execute`. -/
theorem executeTool_not_found (r : ToolRegistry) (n : String) (params : JSValue) (ctx : Context)
    (h : r.tools.lookup n = none) :
    r.executeTool (.str n) params ctx = .error (toolNotFoundMsg r (.str n)) := by
  unfold ToolRegistry.executeTool ToolRegistry.getTool
  simp only [h]
  rfl

/-!
## C1 — unknown tool name in a step

`ToolRegistry.get` throws when the name is unknown; `processJob`'s inner
`catch` (lines 182-185) logs and RETHROWS, so the outer catch reports the
whole job as `PROCESSING_FAILED`.  Nothing logs-and-skips: the unknown name
is fatal to the job, and the remaining steps never run.
-/

/-- C1 (amended): when the first step's post-substitution `use` is a string
that names no registered tool, the dispatch throws the registry's not-found
error, the exception aborts the whole job — `processJob` reports the job
FAILED with that message (not completed) — and no further step is
dispatched: the call trace is exactly the one failed dispatch. -/
theorem unknown_tool_aborts_job (r : ToolRegistry) (yamlLoad : JSValue → Except String JSValue)
    (job parsed step : JSValue) (rest : List JSValue) (n : String)
    (hrc : (job.getProp "ruleCollection").truthy = true)
    (hyr : ((job.getProp "ruleCollection").getProp "yamlRules").truthy = true)
    (hparse : yamlLoad ((job.getProp "ruleCollection").getProp "yamlRules") = .ok parsed)
    (hptruthy : parsed.truthy = true)
    (hsteps : parsed.getProp "steps" = .arr (step :: rest))
    (huse : (replaceVariables step (jobVariables job)).getProp "use" = .str n)
    (hnotfound : r.tools.lookup n = none) :
    processJob r yamlLoad job =
      (.failed (toolNotFoundMsg r (.str n)),
       [⟨.str n, replaceVariables step (jobVariables job), jobContext job⟩]) := by
  apply processJob_of_phase_error
  rw [stepsPhase_of_steps r yamlLoad job parsed (step :: rest) hrc hyr hparse hptruthy hsteps]
  simp only [runSteps, huse,
    executeTool_not_found r n (replaceVariables step (jobVariables job)) (jobContext job) hnotfound]

def cxToolGood : Tool :=
  ⟨"good", fun _ => .ok (), fun _ _ => .ok (.obj [("result", .str "G"), ("shouldContinue", .bool true)])⟩

def cxRegistryC1 : ToolRegistry := ⟨[("good", cxToolGood)]⟩

def cxJob : JSValue := .obj [("id", .str "j1"), ("ruleCollection", .obj [("yamlRules", .str "steps: ...")])]

def cxParsedC1 : JSValue :=
  .obj [("steps", .arr [.obj [("use", .str "nope")], .obj [("use", .str "good")]])]

/-- Counterexample to C1 as stated: with steps `[{use: "nope"}, {use:
"good"}]` (`nope` unregistered, `good` registered), the pipeline does NOT
warn-and-skip and continue with the remaining step — the job is reported
FAILED with the not-found error, and only one dispatch (the failed one) is
ever made, so the registered second step never runs. -/
theorem unknown_tool_c1_counterexample :
    (processJob cxRegistryC1 (fun _ => .ok cxParsedC1) cxJob).1
        = .failed "Tool 'nope' not found. Available tools: good"
      ∧ (processJob cxRegistryC1 (fun _ => .ok cxParsedC1) cxJob).2.length = 1 :=
  ⟨rfl, rfl⟩

/-- Witness for the amended C1 at the same concrete pipeline. -/
theorem unknown_tool_aborts_job_witness :
    processJob cxRegistryC1 (fun _ => .ok cxParsedC1) cxJob =
      (.failed (toolNotFoundMsg cxRegistryC1 (.str "nope")),
       [⟨.str "nope", replaceVariables (.obj [("use", .str "nope")]) (jobVariables cxJob),
         jobContext cxJob⟩]) :=
  unknown_tool_aborts_job cxRegistryC1 (fun _ => .ok cxParsedC1) cxJob cxParsedC1
    (.obj [("use", .str "nope")]) [.obj [("use", .str "good")]] "nope"
    rfl rfl rfl rfl rfl rfl rfl

/-!
## C2 — early stop on `shouldContinue === false`

The break on `shouldContinue === false` (lines 176-179) is real: step 3 is
never dispatched.  But the running `result` is only overwritten when a
step's `toolResult.result` is TRUTHY (line 170), so when step 2 stops the
pipeline while returning a falsy result — exactly what the gate's
non-throwing failure `{result: false, shouldContinue: false}` does — the
job completes with an EARLIER step's result (or the legacy fallback), not
with step 2's.  The claim's result half therefore needs step 2's result to
be truthy.
-/

/-- C2 (amended): for a step list `[s1, s2, s3, ...]` where s1's dispatch
succeeds without stopping the loop and s2's dispatch succeeds with
`shouldContinue === false` AND a truthy `result`, the pipeline never
dispatches step 3 (or any later step) — the call trace is exactly the two
dispatches — and the job completes with exactly step 2's result. -/
theorem stop_signal_result (r : ToolRegistry) (yamlLoad : JSValue → Except String JSValue)
    (job parsed s1 s2 : JSValue) (rest : List JSValue) (t1 t2 : JSValue)
    (hrc : (job.getProp "ruleCollection").truthy = true)
    (hyr : ((job.getProp "ruleCollection").getProp "yamlRules").truthy = true)
    (hparse : yamlLoad ((job.getProp "ruleCollection").getProp "yamlRules") = .ok parsed)
    (hptruthy : parsed.truthy = true)
    (hsteps : parsed.getProp "steps" = .arr (s1 :: s2 :: rest))
    (hex1 : r.executeTool ((replaceVariables s1 (jobVariables job)).getProp "use")
      (replaceVariables s1 (jobVariables job)) (jobContext job) = .ok t1)
    (hcont1 : (t1.truthy && JSValue.strictEq (t1.getProp "shouldContinue") (.bool false)) = false)
    (hex2 : r.executeTool ((replaceVariables s2 (jobVariables job)).getProp "use")
      (replaceVariables s2 (jobVariables job)) (jobContext job) = .ok t2)
    (ht2 : t2.truthy = true)
    (hres2 : (t2.getProp "result").truthy = true)
    (hstop2 : JSValue.strictEq (t2.getProp "shouldContinue") (.bool false) = true) :
    processJob r yamlLoad job =
      (.completed (t2.getProp "result"),
       [⟨(replaceVariables s1 (jobVariables job)).getProp "use",
         replaceVariables s1 (jobVariables job), jobContext job⟩,
        ⟨(replaceVariables s2 (jobVariables job)).getProp "use",
         replaceVariables s2 (jobVariables job), jobContext job⟩]) := by
  apply processJob_of_phase_executed
  rw [stepsPhase_of_steps r yamlLoad job parsed (s1 :: s2 :: rest) hrc hyr hparse hptruthy hsteps]
  simp only [runSteps, hex1, hcont1, Bool.false_eq_true, if_false, hex2, ht2, hres2, hstop2,
    Bool.and_self, Bool.true_and, Bool.and_true, if_true, Bool.or_true]

def cxToolA : Tool :=
  ⟨"a", fun _ => .ok (), fun _ _ => .ok (.obj [("result", .str "A"), ("shouldContinue", .bool true)])⟩

/-- A gate-like tool in its non-throwing failure mode: it returns exactly
`{result: false, shouldContinue: false}`. -/
def cxToolB : Tool :=
  ⟨"b", fun _ => .ok (), fun _ _ => .ok (.obj [("result", .bool false), ("shouldContinue", .bool false)])⟩

def cxToolC : Tool :=
  ⟨"c", fun _ => .ok (), fun _ _ => .ok (.obj [("result", .str "C"), ("shouldContinue", .bool true)])⟩

def cxRegistryABC : ToolRegistry := ⟨[("a", cxToolA), ("b", cxToolB), ("c", cxToolC)]⟩

def cxParsedABC : JSValue :=
  .obj [("steps", .arr [.obj [("use", .str "a")], .obj [("use", .str "b")], .obj [("use", .str "c")]])]

/-- Counterexample to C2 as stated: step 2 produces
`{result: false, shouldContinue: false}` (the gate's non-throwing failure
result).  Step 3 is indeed never dispatched (the trace has two calls), but
the job completes with step 1's result `"A"`, NOT with step 2's result
`false` — the falsy result never became the running result. -/
theorem stop_signal_c2_counterexample :
    (processJob cxRegistryABC (fun _ => .ok cxParsedABC) cxJob).1 = .completed (.str "A")
      ∧ (processJob cxRegistryABC (fun _ => .ok cxParsedABC) cxJob).2.length = 2
      ∧ cxToolB.exec (.obj [("use", .str "b")]) (jobContext cxJob)
          = .ok (.obj [("result", .bool false), ("shouldContinue", .bool false)])
      ∧ JSValue.str "A" ≠ .bool false :=
  ⟨rfl, rfl, rfl, fun h => JSValue.noConfusion h⟩

def cxToolB2 : Tool :=
  ⟨"b2", fun _ => .ok (), fun _ _ => .ok (.obj [("result", .str "B"), ("shouldContinue", .bool false)])⟩

def cxRegistryAB2C : ToolRegistry := ⟨[("a", cxToolA), ("b2", cxToolB2), ("c", cxToolC)]⟩

def cxParsedAB2C : JSValue :=
  .obj [("steps", .arr [.obj [("use", .str "a")], .obj [("use", .str "b2")], .obj [("use", .str "c")]])]

/-- Witness for the amended C2 at a concrete pipeline whose step 2 stops
with the truthy result `"B"`: step 3 is never dispatched and the job
completes with `"B"`. -/
theorem stop_signal_result_witness :
    processJob cxRegistryAB2C (fun _ => .ok cxParsedAB2C) cxJob =
      (.completed (.str "B"),
       [⟨.str "a", .obj [("use", .str "a")], jobContext cxJob⟩,
        ⟨.str "b2", .obj [("use", .str "b2")], jobContext cxJob⟩]) := by
  have h := stop_signal_result cxRegistryAB2C (fun _ => .ok cxParsedAB2C) cxJob cxParsedAB2C
    (.obj [("use", .str "a")]) (.obj [("use", .str "b2")]) [.obj [("use", .str "c")]]
    (.obj [("result", .str "A"), ("shouldContinue", .bool true)])
    (.obj [("result", .str "B"), ("shouldContinue", .bool false)])
    rfl rfl rfl rfl rfl rfl rfl rfl rfl rfl rfl
  exact h.trans rfl

/-!
## C3 — which step results become the running result

Line 170 tests `if (toolResult && toolResult.result)` — TRUTHINESS of the
result, not non-nullness.  A non-null but falsy result (`false`, `0`,
`""`) is discarded: the running `result` keeps its previous value,
`executed` stays false, and — for a single-step job — the legacy fallback
IS taken.  The claim holds only for truthy results.
-/

/-- C3 (amended): (1) in the step loop, when a step's dispatch returns a
truthy `toolResult` whose `result` is TRUTHY, that result becomes the
pipeline's running result and `executed` becomes true — whatever the
previous accumulators were; (2) consequently a job whose single step
returns a truthy result completes with exactly that result and never takes
the legacy fallback (no `offscreen` dispatch, no skipped placeholder). -/
theorem truthy_result_becomes_running_result :
    (∀ (r : ToolRegistry) (vbag : JSValue) (ctx : Context) (step : JSValue)
        (rest : List JSValue) (res0 : JSValue) (ex0 : Bool) (t : JSValue),
      r.executeTool ((replaceVariables step vbag).getProp "use")
          (replaceVariables step vbag) ctx = .ok t →
      t.truthy = true → (t.getProp "result").truthy = true →
      runSteps r vbag ctx (step :: rest) res0 ex0 =
        (if JSValue.strictEq (t.getProp "shouldContinue") (.bool false) then
          (.ok (t.getProp "result", true),
           [⟨(replaceVariables step vbag).getProp "use", replaceVariables step vbag, ctx⟩])
        else
          ((runSteps r vbag ctx rest (t.getProp "result") true).1,
           ⟨(replaceVariables step vbag).getProp "use", replaceVariables step vbag, ctx⟩ ::
             (runSteps r vbag ctx rest (t.getProp "result") true).2)))
    ∧ (∀ (r : ToolRegistry) (yamlLoad : JSValue → Except String JSValue)
        (job parsed s : JSValue) (t : JSValue),
      (job.getProp "ruleCollection").truthy = true →
      ((job.getProp "ruleCollection").getProp "yamlRules").truthy = true →
      yamlLoad ((job.getProp "ruleCollection").getProp "yamlRules") = .ok parsed →
      parsed.truthy = true →
      parsed.getProp "steps" = .arr [s] →
      r.executeTool ((replaceVariables s (jobVariables job)).getProp "use")
          (replaceVariables s (jobVariables job)) (jobContext job) = .ok t →
      t.truthy = true → (t.getProp "result").truthy = true →
      processJob r yamlLoad job =
        (.completed (t.getProp "result"),
         [⟨(replaceVariables s (jobVariables job)).getProp "use",
           replaceVariables s (jobVariables job), jobContext job⟩])) := by
  constructor
  · intro r vbag ctx step rest res0 ex0 t hex ht hres
    simp only [runSteps, hex, ht, hres, Bool.and_self, Bool.true_and, if_true, Bool.or_true]
  · intro r yamlLoad job parsed s t hrc hyr hparse hptruthy hsteps hex ht hres
    apply processJob_of_phase_executed
    rw [stepsPhase_of_steps r yamlLoad job parsed [s] hrc hyr hparse hptruthy hsteps]
    simp only [runSteps, hex, ht, hres, Bool.and_self, Bool.true_and, if_true, Bool.or_true]
    split <;> rfl

/-- A tool returning the non-null but FALSY result `false` (with
`shouldContinue: true`). -/
def cxToolFalse : Tool :=
  ⟨"t", fun _ => .ok (), fun _ _ => .ok (.obj [("result", .bool false), ("shouldContinue", .bool true)])⟩

def cxRegistryFalse : ToolRegistry := ⟨[("t", cxToolFalse)]⟩

def cxParsedFalse : JSValue := .obj [("steps", .arr [.obj [("use", .str "t")]])]

/-- Counterexample to C3 as stated: the single step's dispatch returns the
NON-NULL result `false`, yet it never becomes the pipeline's result and
`executed` stays false — the legacy fallback runs and the job completes
with the `{status: "skipped", reason: "no_steps"}` placeholder instead. -/
theorem truthy_result_c3_counterexample :
    cxToolFalse.exec (.obj [("use", .str "t")]) (jobContext cxJob)
        = .ok (.obj [("result", .bool false), ("shouldContinue", .bool true)])
      ∧ JSValue.bool false ≠ .null
      ∧ (processJob cxRegistryFalse (fun _ => .ok cxParsedFalse) cxJob).1
          = .completed (.obj [("status", .str "skipped"), ("reason", .str "no_steps")]) :=
  ⟨rfl, fun h => JSValue.noConfusion h, rfl⟩

def cxToolX : Tool :=
  ⟨"x", fun _ => .ok (), fun _ _ => .ok (.obj [("result", .str "X"), ("shouldContinue", .bool true)])⟩

def cxRegistryX : ToolRegistry := ⟨[("x", cxToolX)]⟩

def cxParsedX : JSValue := .obj [("steps", .arr [.obj [("use", .str "x")]])]

/-- Witness for the amended C3 at a concrete single-step job whose tool
returns the truthy result `"X"`. -/
theorem truthy_result_becomes_running_result_witness :
    processJob cxRegistryX (fun _ => .ok cxParsedX) cxJob =
      (.completed (.str "X"), [⟨.str "x", .obj [("use", .str "x")], jobContext cxJob⟩]) := by
  have h := truthy_result_becomes_running_result.2 cxRegistryX (fun _ => .ok cxParsedX)
    cxJob cxParsedX (.obj [("use", .str "x")])
    (.obj [("result", .str "X"), ("shouldContinue", .bool true)])
    rfl rfl rfl rfl rfl rfl rfl rfl
  exact h.trans rfl

/-!
## C10 — the context's `variables` field is always the empty object

`processJob` builds one context object `{jobId: job.id, logger, variables:
{}}` (lines 144-148) and passes that same object to every registry dispatch
— both in the step loop (line 163) and in the legacy fallback (line 198).
The job's extracted variable set feeds only `replaceVariables`, never the
context.
-/

theorem runSteps_ctx (r : ToolRegistry) (vbag : JSValue) (ctx : Context) :
    ∀ (steps : List JSValue) (res0 : JSValue) (ex0 : Bool) (rec : CallRecord),
      rec ∈ (runSteps r vbag ctx steps res0 ex0).2 → rec.ctx = ctx := by
  intro steps
  induction steps with
  | nil =>
    intro res0 ex0 rec h
    simp [runSteps] at h
  | cons step rest ih =>
    intro res0 ex0 rec h
    simp only [runSteps] at h
    split at h
    · simp only [List.mem_singleton] at h
      rw [h]
    · split at h
      · simp only [List.mem_singleton] at h
        rw [h]
      · rcases List.mem_cons.mp h with h1 | h2
        · rw [h1]
        · exact ih _ _ rec h2

theorem stepsPhase_ctx (r : ToolRegistry) (yamlLoad : JSValue → Except String JSValue)
    (job vbag : JSValue) (ctx : Context) (rec : CallRecord)
    (h : rec ∈ (stepsPhase r yamlLoad job vbag ctx).2) : rec.ctx = ctx := by
  unfold stepsPhase at h
  split at h
  · split at h
    · simp at h
    · split at h
      · split at h
        · exact runSteps_ctx r vbag ctx _ _ _ rec h
        · exact runSteps_ctx r vbag ctx _ _ _ rec h
        · simp at h
      · simp at h
  · simp at h

theorem legacyFallback_ctx (r : ToolRegistry) (job vbag : JSValue) (ctx : Context)
    (res : JSValue) (rec : CallRecord)
    (h : rec ∈ (legacyFallback r job vbag ctx res).2) : rec.ctx = ctx := by
  simp only [legacyFallback] at h
  split at h
  · split at h
    · split at h
      · simp only [List.mem_singleton] at h
        rw [h]
      · split at h
        · simp only [List.mem_singleton] at h
          rw [h]
        · simp only [List.mem_singleton] at h
          rw [h]
    · simp at h
  · simp at h

/-- C10: for every registry, YAML-parser behavior and job, every tool
dispatch the pipeline makes — step loop and legacy fallback alike —
receives a context whose `variables` field is the EMPTY object: the job's
extracted variable set is never exposed through `context.variables`. -/
theorem context_variables_empty (r : ToolRegistry) (yamlLoad : JSValue → Except String JSValue)
    (job : JSValue) (rec : CallRecord)
    (h : rec ∈ (processJob r yamlLoad job).2) : rec.ctx.vars = .obj [] := by
  have hctx : rec.ctx = jobContext job := by
    simp only [processJob] at h
    split at h
    · rename_i e tr hph
      have : rec ∈ (stepsPhase r yamlLoad job (jobVariables job) (jobContext job)).2 := by
        rw [hph]
        exact h
      exact stepsPhase_ctx r yamlLoad job _ _ rec this
    · rename_i res executed tr hph
      split at h
      · have : rec ∈ (stepsPhase r yamlLoad job (jobVariables job) (jobContext job)).2 := by
          rw [hph]
          exact h
        exact stepsPhase_ctx r yamlLoad job _ _ rec this
      · split at h
        · rename_i e trf hfb
          rcases List.mem_append.mp h with h1 | h2
          · have : rec ∈ (stepsPhase r yamlLoad job (jobVariables job) (jobContext job)).2 := by
              rw [hph]
              exact h1
            exact stepsPhase_ctx r yamlLoad job _ _ rec this
          · have : rec ∈ (legacyFallback r job (jobVariables job) (jobContext job) res).2 := by
              rw [hfb]
              exact h2
            exact legacyFallback_ctx r job _ _ res rec this
        · rename_i res' trf hfb
          rcases List.mem_append.mp h with h1 | h2
          · have : rec ∈ (stepsPhase r yamlLoad job (jobVariables job) (jobContext job)).2 := by
              rw [hph]
              exact h1
            exact stepsPhase_ctx r yamlLoad job _ _ rec this
          · have : rec ∈ (legacyFallback r job (jobVariables job) (jobContext job) res).2 := by
              rw [hfb]
              exact h2
            exact legacyFallback_ctx r job _ _ res rec this
  rw [hctx]
  rfl

/-- Witness for C10 at a concrete job whose single step dispatches one
tool: the context it received has the empty `variables` object. -/
theorem context_variables_empty_witness :
    ((processJob cxRegistryX (fun _ => .ok cxParsedX) cxJob).2.map fun rec => rec.ctx.vars)
      = [JSValue.obj []] := by
  have htr : (processJob cxRegistryX (fun _ => .ok cxParsedX) cxJob).2
      = [⟨.str "x", .obj [("use", .str "x")], jobContext cxJob⟩] := rfl
  have hrec := context_variables_empty cxRegistryX (fun _ => .ok cxParsedX) cxJob
    ⟨.str "x", .obj [("use", .str "x")], jobContext cxJob⟩ (by rw [htr]; simp)
  rw [htr, List.map_cons, List.map_nil, hrec]
